import Mathlib

/-!
Example behavior-tree nodes (Code/BehaviorTree/BehaviorTreeNodes_Example.cpp)

A shallow embedding of the three example node classes `ExampleLog`,
`ExampleSendEvent` and `ExampleReceiveEvent`.  Every member function becomes a
function that takes the node object and returns the node object after the
call together with the engine calls the body makes, in program order.  A call
whose behavior the C language leaves undefined has no result (`none`).

The host engine (CryAISystem, CrySystem) is not part of the repository.  The
few engine types the node bodies touch are modelled below, each one marked.
C strings (`const char*`, the engine `string`) are modelled by `String`.
The `CreateXmlDescription` members exist in builds that define
`USING_BEHAVIOR_TREE_XML_DESCRIPTION_CREATION`.
-/

namespace BehaviorTree

/-! ## Engine interface -/

/-- Modelled from the spec: the status of a node (data model, section 3):
Uninitialized, Running, Success, Failure.  The engine header that declares the
enumeration is not part of the repository. -/
inductive Status
  | Uninitialized
  | Running
  | Success
  | Failure
  deriving DecidableEq, Repr

/-- Modelled from the spec: outcome of loading a node configuration
(section 4.1, `Result<Config, LoadError>`); the source names the success value
`LoadSuccess`.  The engine header that declares it is not part of the
repository. -/
inductive LoadResult
  | LoadFailure
  | LoadSuccess
  deriving DecidableEq, Repr

/-- Modelled from the spec: an event is an immutable value identified by a
name, with equality by name (section 3).  The engine class `Event` is not part
of the repository; `Event(name)` is `Event.mk name`, `Event()` is
`Event.mk ""` and `GetName()` is the projection. -/
structure Event where
  name : String
  deriving DecidableEq, Repr

/-- Modelled from the spec: a declarative node description with a
mapping-of-named-attributes interface (section 6).  The engine class behind
`XmlNodeRef` is not part of the repository.  A description carries a tag and
its attributes in document order. -/
structure XmlNode where
  tag : String
  attrs : List (String × String)
  deriving DecidableEq, Repr

/-- Lookup of the first attribute with the given key. -/
def XmlNode.findAttr : List (String × String) → String → Option String
  | [], _ => none
  | (k, v) :: rest, key => if k = key then some v else XmlNode.findAttr rest key

/-- The predicate `xml->haveAttr(key)`: the description has the attribute. -/
def XmlNode.haveAttr (xml : XmlNode) (key : String) : Bool :=
  (XmlNode.findAttr xml.attrs key).isSome

/-- The call `xml->getAttr(key)`: the value of the attribute, and the empty
C string when the description has no such attribute. -/
def XmlNode.getAttr (xml : XmlNode) (key : String) : String :=
  (XmlNode.findAttr xml.attrs key).getD ""

/-- Replacement of the value of the first attribute with the given key, or a
new attribute at the end when there is none. -/
def XmlNode.putAttr : List (String × String) → String → String → List (String × String)
  | [], key, value => [(key, value)]
  | (k, v) :: rest, key, value =>
    if k = key then (k, value) :: rest else (k, v) :: XmlNode.putAttr rest key value

/-- The call `xml->setAttr(key, value)`. -/
def XmlNode.setAttr (xml : XmlNode) (key value : String) : XmlNode :=
  { xml with attrs := XmlNode.putAttr xml.attrs key value }

/-- Modelled from the spec: the load context handed to `LoadFromXml`; the node
bodies of this repository never read it. -/
structure LoadContext where
  treeName : String
  deriving DecidableEq, Repr

/-- Modelled from the spec: the borrowed view passed to each tick
(section 3); the node bodies read only the identity of the owning entity,
`context.entityId`. -/
structure UpdateContext where
  entityId : Nat
  deriving DecidableEq, Repr

/-- Modelled from the spec: the borrowed view supplied when an event is
delivered (section 3). -/
structure EventContext where
  entityId : Nat
  deriving DecidableEq, Repr

/-- An engine call made by a node body.
* `log text`: one entry written by `CryLogAlways`, with its text.
* `managerHandleEvent id e`: the call
  `gEnv->pAISystem->GetIBehaviorTreeManager()->HandleEvent(id, e)`.
* `forwardToChild e`: the forwarding of an event to the child of a decorator,
  which is what `BaseClass::HandleEvent(context, event)` of a decorator does
  (spec section 4.1: the default behavior for decorators is to forward to
  active children). -/
inductive Effect
  | log (text : String)
  | managerHandleEvent (entityId : Nat) (event : Event)
  | forwardToChild (event : Event)
  deriving DecidableEq, Repr

/-- Expansion of a printf format string when the call passes no argument
after the format: an ordinary character is copied, the directive `%%` writes
one percent sign, and every other directive consumes an argument that was not
passed, which is undefined behavior (`none`): the expansion has no result. -/
def formatNoArgs : List Char → Option (List Char)
  | [] => some []
  | [c] => if c = '%' then none else some [c]
  | c :: d :: rest =>
    if c = '%' then
      if d = '%' then (formatNoArgs rest).map (fun out => '%' :: out) else none
    else (formatNoArgs (d :: rest)).map (fun out => c :: out)

/-- The engine call `CryLogAlways(format)`, a printf-style function
(`void CryLogAlways(const char* format, ...)`), called with the format alone.
When the expansion of the format is defined the call writes one log entry
with the expanded text and returns; when the format has a directive that
needs an argument the call is undefined behavior and has no result (`none`):
it need not write an entry, and it need not return. -/
def CryLogAlways (format : String) : Option Effect :=
  (formatNoArgs format.toList).map (fun out => Effect.log (String.mk out))

/-- The node after a call and the engine calls made during it. -/
structure Step (σ : Type) where
  node : σ
  effects : List Effect
  deriving DecidableEq

/-- The result of `Update`: the returned status, the node after the call and
the engine calls made during it. -/
structure UpdateResult (σ : Type) where
  status : Status
  node : σ
  effects : List Effect
  deriving DecidableEq

/-- The result of `LoadFromXml`: the returned load result and the node after
the call. -/
structure LoadOutcome (σ : Type) where
  result : LoadResult
  node : σ

/-- The outcome of n consecutive `Update` calls, one per update context: the
status and the engine calls of each call, in order; the node object is threaded
from one call to the next. -/
def runUpdates {σ : Type} (update : σ → UpdateContext → UpdateResult σ) :
    σ → List UpdateContext → List (Status × List Effect)
  | _, [] => []
  | node, ctx :: rest =>
    let r := update node ctx
    (r.status, r.effects) :: runUpdates update r.node rest

/-- The node object after n consecutive `Update` calls. -/
def nodeAfterUpdates {σ : Type} (update : σ → UpdateContext → UpdateResult σ) :
    σ → List UpdateContext → σ
  | node, [] => node
  | node, ctx :: rest => nodeAfterUpdates update (update node ctx).node rest

/-! ## ExampleLog -/

/-- The class `ExampleLog : public Node`; its only member is `m_logMessage`. -/
structure ExampleLog where
  m_logMessage : String
  deriving DecidableEq, Repr

namespace ExampleLog

/-- The method `ExampleLog::LoadFromXml`: stores the attribute "message" and
returns `LoadSuccess`. -/
def LoadFromXml (self : ExampleLog) (xml : XmlNode) (_context : LoadContext)
    (_isLoadingFromEditor : Bool) : LoadOutcome ExampleLog :=
  { result := LoadResult.LoadSuccess,
    node := { self with m_logMessage := xml.getAttr "message" } }

/-- The method `ExampleLog::OnInitialize` (empty body). -/
def OnInitialize (self : ExampleLog) (_context : UpdateContext) : Step ExampleLog :=
  { node := self, effects := [] }

/-- The method `ExampleLog::Update`: `CryLogAlways(m_logMessage)`, then
`return Success`.  The message is passed as the format of `CryLogAlways`: when
that call is undefined behavior the control need not reach the `return`, and
`Update` has no result (`none`). -/
def Update (self : ExampleLog) (_context : UpdateContext) :
    Option (UpdateResult ExampleLog) :=
  match CryLogAlways self.m_logMessage with
  | none => none
  | some entry => some { status := Status.Success, node := self, effects := [entry] }

/-- The method `ExampleLog::OnTerminate` (empty body). -/
def OnTerminate (self : ExampleLog) (_context : UpdateContext) : Step ExampleLog :=
  { node := self, effects := [] }

/-- The method `ExampleLog::HandleEvent` (empty body). -/
def HandleEvent (self : ExampleLog) (_context : EventContext) (_event : Event) :
    Step ExampleLog :=
  { node := self, effects := [] }

end ExampleLog

/-! ## ExampleSendEvent -/

/-- The class `ExampleSendEvent : public Node`; its only member is
`m_eventToSend`. -/
structure ExampleSendEvent where
  m_eventToSend : Event
  deriving DecidableEq, Repr

namespace ExampleSendEvent

/-- The method `ExampleSendEvent::LoadFromXml`: builds the event from the
attribute "event" and returns `LoadSuccess`. -/
def LoadFromXml (self : ExampleSendEvent) (xml : XmlNode) (_context : LoadContext)
    (_isLoadingFromEditor : Bool) : LoadOutcome ExampleSendEvent :=
  let eventName := xml.getAttr "event"
  { result := LoadResult.LoadSuccess,
    node := { self with m_eventToSend := Event.mk eventName } }

/-- The method `ExampleSendEvent::OnInitialize` (empty body). -/
def OnInitialize (self : ExampleSendEvent) (_context : UpdateContext) :
    Step ExampleSendEvent :=
  { node := self, effects := [] }

/-- The method `ExampleSendEvent::Update`: hands `m_eventToSend` to the
behavior-tree manager for the entity of the context, then `return Running`. -/
def Update (self : ExampleSendEvent) (context : UpdateContext) :
    UpdateResult ExampleSendEvent :=
  { status := Status.Running, node := self,
    effects := [Effect.managerHandleEvent context.entityId self.m_eventToSend] }

/-- The method `ExampleSendEvent::OnTerminate` (empty body). -/
def OnTerminate (self : ExampleSendEvent) (_context : UpdateContext) :
    Step ExampleSendEvent :=
  { node := self, effects := [] }

/-- The method `ExampleSendEvent::HandleEvent` (empty body). -/
def HandleEvent (self : ExampleSendEvent) (_context : EventContext) (_event : Event) :
    Step ExampleSendEvent :=
  { node := self, effects := [] }

/-- One activation of the node: `OnInitialize`, one `Update` per context of
`ticks`, then `OnTerminate`.  The result lists the engine calls of each of the
member calls, in order: first those of `OnInitialize`, then those of each
`Update`, last those of `OnTerminate`. -/
def activation (self : ExampleSendEvent) (initContext : UpdateContext)
    (ticks : List UpdateContext) (termContext : UpdateContext) : List (List Effect) :=
  let init := OnInitialize self initContext
  let term := OnTerminate (nodeAfterUpdates Update init.node ticks) termContext
  init.effects :: (runUpdates Update init.node ticks).map Prod.snd ++ [term.effects]

end ExampleSendEvent

/-- Whether an engine call is a call of the manager HandleEvent with the given
event. -/
def Effect.isBroadcastOf (event : Event) : Effect → Bool
  | Effect.managerHandleEvent _ e => decide (e = event)
  | _ => false

/-- The number of calls of the manager HandleEvent with the given event among
the engine calls of a sequence of member calls. -/
def broadcastCount (event : Event) (calls : List (List Effect)) : Nat :=
  (calls.flatten.filter (Effect.isBroadcastOf event)).length

/-! ## ExampleReceiveEvent -/

/-- The class `ExampleReceiveEvent : public Decorator` (compiled when
`_PROFILE` is defined).  `base` is the
`Decorator` subobject, whose class belongs to the engine and is kept abstract
(the type `β`); `m_eventToReceive` is the only member the class adds.  A member
function that calls a `BaseClass::` function takes that function as its first
argument. -/
structure ExampleReceiveEvent (β : Type) where
  base : β
  m_eventToReceive : Event

namespace ExampleReceiveEvent

variable {β : Type}

/-- The method `ExampleReceiveEvent::LoadFromXml`: calls
`BaseClass::LoadFromXml`, builds the event from the attribute "event", and
returns the result of the base call. -/
def LoadFromXml (baseLoadFromXml : β → XmlNode → LoadContext → Bool → LoadOutcome β)
    (self : ExampleReceiveEvent β) (xml : XmlNode) (context : LoadContext)
    (isLoadingFromEditor : Bool) : LoadOutcome (ExampleReceiveEvent β) :=
  let result := baseLoadFromXml self.base xml context isLoadingFromEditor
  let eventName := xml.getAttr "event"
  { result := result.result,
    node := { base := result.node, m_eventToReceive := Event.mk eventName } }

/-- The method `ExampleReceiveEvent::OnInitialize`: `BaseClass::OnInitialize`. -/
def OnInitialize (baseOnInitialize : β → UpdateContext → Step β)
    (self : ExampleReceiveEvent β) (context : UpdateContext) :
    Step (ExampleReceiveEvent β) :=
  let r := baseOnInitialize self.base context
  { node := { self with base := r.node }, effects := r.effects }

/-- The method `ExampleReceiveEvent::Update`: `return BaseClass::Update(context)`. -/
def Update (baseUpdate : β → UpdateContext → UpdateResult β)
    (self : ExampleReceiveEvent β) (context : UpdateContext) :
    UpdateResult (ExampleReceiveEvent β) :=
  let r := baseUpdate self.base context
  { status := r.status, node := { self with base := r.node }, effects := r.effects }

/-- The method `ExampleReceiveEvent::OnTerminate`: `BaseClass::OnTerminate`. -/
def OnTerminate (baseOnTerminate : β → UpdateContext → Step β)
    (self : ExampleReceiveEvent β) (context : UpdateContext) :
    Step (ExampleReceiveEvent β) :=
  let r := baseOnTerminate self.base context
  { node := { self with base := r.node }, effects := r.effects }

/-- The method `ExampleReceiveEvent::HandleEvent`: the call of
`BaseClass::HandleEvent` is commented out in the source, so the body is the
comparison of the event with `m_eventToReceive` and the log line.  The format
of this `CryLogAlways` call is a literal without a directive, so the call is
defined; `Option.get` takes its entry, with the proof that it is defined. -/
def HandleEvent (self : ExampleReceiveEvent β) (_context : EventContext) (event : Event) :
    Step (ExampleReceiveEvent β) :=
  { node := self,
    effects :=
      if event = self.m_eventToReceive then
        [(CryLogAlways "We got the event!").get (by decide)]
      else [] }

/-- The node object after a sequence of events was delivered to it. -/
def afterEvents (self : ExampleReceiveEvent β) :
    List (EventContext × Event) → ExampleReceiveEvent β
  | [] => self
  | (context, event) :: rest => afterEvents (HandleEvent self context event).node rest

end ExampleReceiveEvent

/-! ## Input traces -/

/-- Modelled from the spec: the `Decorator` subobject of the root of the
two-node tree: the one child it owns, and whether the child is active
(between its `OnInitialize` and its `OnTerminate`).  The engine class
`Decorator` is not part of the repository. -/
structure ChildSlot where
  node : ExampleSendEvent
  running : Bool
  deriving DecidableEq, Repr

namespace Decorator

/-- Modelled from the spec: `Decorator::OnInitialize` of the engine, which is
not part of the repository; the decorator itself has nothing to reset. -/
def OnInitialize (base : ChildSlot) (_context : UpdateContext) : Step ChildSlot :=
  { node := base, effects := [] }

/-- Modelled from the spec: `Decorator::Update` of the engine, which is not
part of the repository: `Update` delegates to the child (section 4.2).  The
child is initialized when it is not active yet, updated, and terminated when
it returns a status other than Running (section 4.1). -/
def Update (base : ChildSlot) (context : UpdateContext) : UpdateResult ChildSlot :=
  let init : Step ExampleSendEvent :=
    if base.running then { node := base.node, effects := [] }
    else ExampleSendEvent.OnInitialize base.node context
  let r := ExampleSendEvent.Update init.node context
  if r.status = Status.Running then
    { status := r.status, node := { node := r.node, running := true },
      effects := init.effects ++ r.effects }
  else
    let term := ExampleSendEvent.OnTerminate r.node context
    { status := r.status, node := { node := term.node, running := false },
      effects := init.effects ++ r.effects ++ term.effects }

/-- Modelled from the spec: `Decorator::OnTerminate` of the engine, which is
not part of the repository: an active child is terminated with its parent. -/
def OnTerminate (base : ChildSlot) (context : UpdateContext) : Step ChildSlot :=
  if base.running then
    let term := ExampleSendEvent.OnTerminate base.node context
    { node := { node := term.node, running := false }, effects := term.effects }
  else { node := base, effects := [] }

/-- Modelled from the spec: `Decorator::HandleEvent` of the engine, which is
not part of the repository: the default behavior of a decorator is to forward
the event to its active child (section 4.1).  `ExampleReceiveEvent` does not
call it. -/
def HandleEvent (base : ChildSlot) (_context : EventContext) (event : Event) :
    Step ChildSlot :=
  { node := base, effects := [Effect.forwardToChild event] }

end Decorator

/-- Modelled from the spec: a tree instance bound to an entity, with an
`ExampleReceiveEvent` root over an `ExampleSendEvent` child; `rootRunning`
tells whether the root is active. -/
structure TwoNodeTree where
  entityId : Nat
  root : ExampleReceiveEvent ChildSlot
  rootRunning : Bool

/-- The node of the two-node tree an event is sent to. -/
inductive Target
  | root
  | child
  deriving DecidableEq, Repr

/-- What the runtime of the two-node tree does during a tick or a delivery:
an invocation of `HandleEvent` on a node, a log entry, or a call of the manager
HandleEvent (a broadcast). -/
inductive Call
  | handleEvent (target : Target) (event : Event)
  | log (text : String)
  | broadcast (entityId : Nat) (event : Event)
  deriving DecidableEq, Repr

/-- Modelled from the spec: the runtime carries out the engine calls of a node
body, in order.  A log entry is written; a call of the manager HandleEvent
looks up the tree bound to the entity and delivers the event to its root
(section 4.4), and is a no-op for another entity; a forwarding delivers the
event to the child.  `send` is the delivery of an event to a node. -/
def interpret (send : TwoNodeTree → Target → Event → Option (TwoNodeTree × List Call)) :
    TwoNodeTree → List Effect → Option (TwoNodeTree × List Call)
  | tree, [] => some (tree, [])
  | tree, Effect.log text :: rest =>
    (interpret send tree rest).map (fun out => (out.1, Call.log text :: out.2))
  | tree, Effect.managerHandleEvent entityId event :: rest =>
    match (if entityId = tree.entityId then send tree Target.root event else some (tree, [])) with
    | none => none
    | some (tree1, calls1) =>
      (interpret send tree1 rest).map
        (fun out => (out.1, Call.broadcast entityId event :: calls1 ++ out.2))
  | tree, Effect.forwardToChild event :: rest =>
    match send tree Target.child event with
    | none => none
    | some (tree1, calls1) =>
      (interpret send tree1 rest).map (fun out => (out.1, calls1 ++ out.2))

/-- Modelled from the spec: delivery of an event to a node of the two-node
tree (section 4.4): an active node has its `HandleEvent` invoked, and the
engine calls of that body are carried out; a node that is not active receives
nothing.  The nesting depth of deliveries is bounded by `fuel`; `none` means
the bound was reached. -/
def SendEvent : Nat → TwoNodeTree → Target → Event → Option (TwoNodeTree × List Call)
  | 0, _, _, _ => none
  | fuel + 1, tree, Target.root, event =>
    if tree.rootRunning then
      let r := ExampleReceiveEvent.HandleEvent tree.root ⟨tree.entityId⟩ event
      (interpret (SendEvent fuel) { tree with root := r.node } r.effects).map
        (fun out => (out.1, Call.handleEvent Target.root event :: out.2))
    else some (tree, [])
  | fuel + 1, tree, Target.child, event =>
    if tree.root.base.running then
      let r := ExampleSendEvent.HandleEvent tree.root.base.node ⟨tree.entityId⟩ event
      (interpret (SendEvent fuel)
          { tree with root := { tree.root with base := { tree.root.base with node := r.node } } }
          r.effects).map
        (fun out => (out.1, Call.handleEvent Target.child event :: out.2))
    else some (tree, [])

/-- Modelled from the spec: the manager HandleEvent for the two-node tree
(section 4.4): the event goes to the root of the tree bound to the entity. -/
def managerHandleEvent (fuel : Nat) (tree : TwoNodeTree) (entityId : Nat) (event : Event) :
    Option (TwoNodeTree × List Call) :=
  if entityId = tree.entityId then SendEvent fuel tree Target.root event else some (tree, [])

/-- Modelled from the spec: one tick of the two-node tree (section 4.4): the
root is initialized when it is not active yet, then updated, and terminated
when it returns a status other than Running; the engine calls of these bodies
are carried out. -/
def tick (fuel : Nat) (tree : TwoNodeTree) : Option (Status × TwoNodeTree × List Call) :=
  let context : UpdateContext := ⟨tree.entityId⟩
  let init : Step (ExampleReceiveEvent ChildSlot) :=
    if tree.rootRunning then { node := tree.root, effects := [] }
    else ExampleReceiveEvent.OnInitialize Decorator.OnInitialize tree.root context
  let r := ExampleReceiveEvent.Update Decorator.Update init.node context
  match interpret (SendEvent fuel) { tree with root := r.node, rootRunning := true }
      (init.effects ++ r.effects) with
  | none => none
  | some (tree1, calls1) =>
    if r.status = Status.Running then some (r.status, tree1, calls1)
    else
      let term := ExampleReceiveEvent.OnTerminate Decorator.OnTerminate tree1.root context
      (interpret (SendEvent fuel) { tree1 with root := term.node, rootRunning := false }
          term.effects).map
        (fun out => (r.status, out.1, calls1 ++ out.2))

/-- The number of invocations of `HandleEvent` on a node in a list of runtime
calls. -/
def handleEventCount (target : Target) (calls : List Call) : Nat :=
  (calls.filter (fun c => match c with
    | Call.handleEvent t _ => decide (t = target)
    | _ => false)).length

/-- The number of broadcasts in a list of runtime calls. -/
def callBroadcastCount (calls : List Call) : Nat :=
  (calls.filter (fun c => match c with
    | Call.broadcast _ _ => true
    | _ => false)).length

/-- The two-node tree of an entity before its first tick. -/
def TwoNodeTree.fresh (entityId : Nat) (toReceive toSend : Event) : TwoNodeTree :=
  { entityId := entityId,
    root := { base := { node := { m_eventToSend := toSend }, running := false },
              m_eventToReceive := toReceive },
    rootRunning := false }

/-! ## Lemmas on the engine interface -/

theorem XmlNode.findAttr_putAttr (attrs : List (String × String)) (key value : String) :
    XmlNode.findAttr (XmlNode.putAttr attrs key value) key = some value := by
  induction attrs with
  | nil => simp [XmlNode.putAttr, XmlNode.findAttr]
  | cons head rest ih =>
    obtain ⟨k, v⟩ := head
    by_cases h : k = key
    · simp [XmlNode.putAttr, XmlNode.findAttr, h]
    · simp [XmlNode.putAttr, XmlNode.findAttr, h, ih]

theorem XmlNode.getAttr_setAttr (xml : XmlNode) (key value : String) :
    (xml.setAttr key value).getAttr key = value := by
  simp [XmlNode.getAttr, XmlNode.setAttr, XmlNode.findAttr_putAttr]

theorem XmlNode.getAttr_of_haveAttr_false (xml : XmlNode) (key : String)
    (h : xml.haveAttr key = false) : xml.getAttr key = "" := by
  cases hf : XmlNode.findAttr xml.attrs key with
  | none => simp [XmlNode.getAttr, hf]
  | some v => simp [XmlNode.haveAttr, hf] at h

theorem CryLogAlways_gotEvent (h : (CryLogAlways "We got the event!").isSome = true) :
    (CryLogAlways "We got the event!").get h = Effect.log "We got the event!" := by
  rfl

theorem formatNoArgs_of_no_percent (chars : List Char) (h : ∀ c ∈ chars, c ≠ '%') :
    formatNoArgs chars = some chars := by
  induction chars with
  | nil => rfl
  | cons c rest ih =>
    have hc : c ≠ '%' := h c (List.mem_cons_self c rest)
    have hrest : ∀ d ∈ rest, d ≠ '%' := fun d hd => h d (List.mem_cons_of_mem c hd)
    cases rest with
    | nil => simp [formatNoArgs, hc]
    | cons d rest2 =>
      rw [formatNoArgs, if_neg hc, ih hrest]
      rfl

theorem ExampleSendEvent.runUpdates_send_eq (self : ExampleSendEvent) (ticks : List UpdateContext) :
    runUpdates ExampleSendEvent.Update self ticks =
      ticks.map (fun c =>
        (Status.Running, [Effect.managerHandleEvent c.entityId self.m_eventToSend])) := by
  induction ticks with
  | nil => rfl
  | cons c rest ih => simp [runUpdates, ExampleSendEvent.Update, ih]

theorem ExampleSendEvent.nodeAfterUpdates_eq (self : ExampleSendEvent)
    (ticks : List UpdateContext) :
    nodeAfterUpdates ExampleSendEvent.Update self ticks = self := by
  induction ticks with
  | nil => rfl
  | cons c rest ih => simp [nodeAfterUpdates, ExampleSendEvent.Update, ih]

theorem ExampleReceiveEvent.afterEvents_eq {β : Type} (self : ExampleReceiveEvent β)
    (events : List (EventContext × Event)) :
    ExampleReceiveEvent.afterEvents self events = self := by
  induction events with
  | nil => rfl
  | cons head rest ih =>
    obtain ⟨context, event⟩ := head
    simp [ExampleReceiveEvent.afterEvents, ExampleReceiveEvent.HandleEvent, ih]

theorem broadcastCount_map_update (event : Event) (ticks : List UpdateContext) :
    ((ticks.map (fun c => [Effect.managerHandleEvent c.entityId event])).flatten.filter
      (Effect.isBroadcastOf event)).length = ticks.length := by
  induction ticks with
  | nil => rfl
  | cons c rest ih =>
    rw [List.map_cons, List.flatten_cons, List.filter_append, List.length_append, ih]
    simp [Effect.isBroadcastOf]
    omega

/-! ## The claims -/

/-- An Update of ExampleLog that has a result returns Success, never Running
or Failure, and leaves the node as it was. -/
theorem ExampleLog.update_status_of_defined (self : ExampleLog) (context : UpdateContext)
    (r : UpdateResult ExampleLog) (h : ExampleLog.Update self context = some r) :
    r.status = Status.Success ∧ r.node = self := by
  unfold ExampleLog.Update at h
  cases hlog : CryLogAlways self.m_logMessage with
  | none => rw [hlog] at h; cases h
  | some entry =>
    rw [hlog] at h
    cases h
    exact ⟨rfl, rfl⟩

/-- When the expansion of the message is defined, Update has a result: it
writes the expanded text as one entry and returns Success. -/
theorem ExampleLog.update_of_format (self : ExampleLog) (context : UpdateContext)
    (out : List Char) (h : formatNoArgs self.m_logMessage.toList = some out) :
    ExampleLog.Update self context =
      some { status := Status.Success, node := self, effects := [Effect.log (String.mk out)] } := by
  unfold ExampleLog.Update CryLogAlways
  rw [h]
  rfl

/-- When the expansion of the message is undefined, so is Update. -/
theorem ExampleLog.update_of_format_undefined (self : ExampleLog) (context : UpdateContext)
    (h : formatNoArgs self.m_logMessage.toList = none) :
    ExampleLog.Update self context = none := by
  unfold ExampleLog.Update CryLogAlways
  rw [h]
  rfl

/-- C2 fails on the code at a message with a conversion directive.  The node
configured with "hello" returns Success, but for the node loaded with the
message "%s" the call `CryLogAlways(m_logMessage)` is undefined behavior, so
Update has no result there: it does not return Success. -/
theorem C2_exampleLog_update_undefined_for_directive :
    ExampleLog.Update ⟨"hello"⟩ ⟨1⟩ =
      some { status := Status.Success, node := ⟨"hello"⟩, effects := [Effect.log "hello"] } ∧
    (ExampleLog.LoadFromXml ⟨""⟩ ⟨"ExampleLog", [("message", "%s")]⟩ ⟨"tree"⟩
        false).node = ⟨"%s"⟩ ∧
    ExampleLog.Update
        (ExampleLog.LoadFromXml ⟨""⟩ ⟨"ExampleLog", [("message", "%s")]⟩ ⟨"tree"⟩
          false).node ⟨1⟩ = none ∧
    (ExampleLog.Update
        (ExampleLog.LoadFromXml ⟨""⟩ ⟨"ExampleLog", [("message", "%s")]⟩ ⟨"tree"⟩
          false).node ⟨1⟩).map (fun r => r.status) ≠ some Status.Success := by
  decide

/-- C3: for every ExampleSendEvent node (every configured event) and every
update context, Update returns Running; the status sequence of n consecutive
Updates is n times Running, so the node never returns Success or Failure. -/
theorem C3_exampleSendEvent_update_running (self : ExampleSendEvent)
    (context : UpdateContext) (ticks : List UpdateContext) :
    (ExampleSendEvent.Update self context).status = Status.Running ∧
    (runUpdates ExampleSendEvent.Update self ticks).map Prod.fst =
      List.replicate ticks.length Status.Running ∧
    (∀ s ∈ (runUpdates ExampleSendEvent.Update self ticks).map Prod.fst,
      s ≠ Status.Success ∧ s ≠ Status.Failure) := by
  have hrun : (runUpdates ExampleSendEvent.Update self ticks).map Prod.fst =
      List.replicate ticks.length Status.Running := by
    rw [ExampleSendEvent.runUpdates_send_eq, List.map_map]
    simp [Function.comp_def]
  refine ⟨rfl, hrun, ?_⟩
  intro s hs
  rw [hrun] at hs
  have := List.eq_of_mem_replicate hs
  subst this
  exact ⟨by decide, by decide⟩

/-- C1, as stated, fails: in an activation with two Updates of a node
configured with the event "go", each of the two Updates calls the manager
HandleEvent, so the event is handed over twice, not once. -/
theorem C1_counterexample_two_updates :
    ExampleSendEvent.activation ⟨⟨"go"⟩⟩ ⟨1⟩ [⟨1⟩, ⟨1⟩] ⟨1⟩ =
      [[], [Effect.managerHandleEvent 1 ⟨"go"⟩], [Effect.managerHandleEvent 1 ⟨"go"⟩], []] ∧
    broadcastCount ⟨"go"⟩ (ExampleSendEvent.activation ⟨⟨"go"⟩⟩ ⟨1⟩ [⟨1⟩, ⟨1⟩] ⟨1⟩) = 2 ∧
    broadcastCount ⟨"go"⟩ (ExampleSendEvent.activation ⟨⟨"go"⟩⟩ ⟨1⟩ [⟨1⟩, ⟨1⟩] ⟨1⟩) ≠ 1 := by
  decide

/-- C1, amended: in every activation of an ExampleSendEvent node
(OnInitialize, n Updates, OnTerminate) every Update calls the manager
HandleEvent exactly once, with the entity of its context and the configured
event; OnInitialize and OnTerminate make no call; so the number of calls with
the configured event during the activation is n, the number of Updates. -/
theorem C1_exampleSendEvent_broadcast_every_update (self : ExampleSendEvent)
    (initContext termContext : UpdateContext) (ticks : List UpdateContext) :
    ExampleSendEvent.activation self initContext ticks termContext =
      [] :: ticks.map (fun c => [Effect.managerHandleEvent c.entityId self.m_eventToSend])
        ++ [[]] ∧
    broadcastCount self.m_eventToSend
      (ExampleSendEvent.activation self initContext ticks termContext) = ticks.length := by
  have hact : ExampleSendEvent.activation self initContext ticks termContext =
      [] :: ticks.map (fun c => [Effect.managerHandleEvent c.entityId self.m_eventToSend])
        ++ [[]] := by
    simp [ExampleSendEvent.activation, ExampleSendEvent.OnInitialize,
      ExampleSendEvent.OnTerminate, ExampleSendEvent.runUpdates_send_eq, List.map_map,
      Function.comp_def]
  refine ⟨hact, ?_⟩
  rw [hact]
  unfold broadcastCount
  rw [List.flatten_append, List.flatten_cons, List.nil_append, List.filter_append,
    List.length_append, broadcastCount_map_update]
  simp

/-- C5, as stated, fails: a description without any attribute is loaded with
LoadSuccess by ExampleLog and by ExampleSendEvent, and by ExampleReceiveEvent
when the base Decorator load succeeds. -/
theorem C5_counterexample_missing_attribute :
    XmlNode.haveAttr ⟨"ExampleLog", []⟩ "message" = false ∧
    (ExampleLog.LoadFromXml ⟨"old"⟩ ⟨"ExampleLog", []⟩ ⟨"tree"⟩ false).result =
      LoadResult.LoadSuccess ∧
    XmlNode.haveAttr ⟨"ExampleSendEvent", []⟩ "event" = false ∧
    (ExampleSendEvent.LoadFromXml ⟨⟨"old"⟩⟩ ⟨"ExampleSendEvent", []⟩ ⟨"tree"⟩ false).result =
      LoadResult.LoadSuccess ∧
    XmlNode.haveAttr ⟨"ExampleReceiveEvent", []⟩ "event" = false ∧
    (ExampleReceiveEvent.LoadFromXml (fun (b : Unit) _ _ _ => ⟨LoadResult.LoadSuccess, b⟩)
        ⟨(), ⟨"old"⟩⟩ ⟨"ExampleReceiveEvent", []⟩ ⟨"tree"⟩ false).result =
      LoadResult.LoadSuccess := by
  decide

/-- C5, amended: a description that lacks the attribute is not rejected.
ExampleLog loads it with LoadSuccess and the empty message, ExampleSendEvent
with LoadSuccess and the event of the empty name, and ExampleReceiveEvent
returns the result of the base Decorator load, whichever it is, and holds the
event of the empty name. -/
theorem C5_load_reads_missing_attribute_as_empty {β : Type}
    (xmlLog xmlSend xmlRecv : XmlNode)
    (hLog : xmlLog.haveAttr "message" = false)
    (hSend : xmlSend.haveAttr "event" = false)
    (hRecv : xmlRecv.haveAttr "event" = false)
    (log : ExampleLog) (send : ExampleSendEvent) (recv : ExampleReceiveEvent β)
    (baseLoadFromXml : β → XmlNode → LoadContext → Bool → LoadOutcome β)
    (context : LoadContext) (isLoadingFromEditor : Bool) :
    (ExampleLog.LoadFromXml log xmlLog context isLoadingFromEditor).result =
      LoadResult.LoadSuccess ∧
    (ExampleLog.LoadFromXml log xmlLog context isLoadingFromEditor).node.m_logMessage = "" ∧
    (ExampleSendEvent.LoadFromXml send xmlSend context isLoadingFromEditor).result =
      LoadResult.LoadSuccess ∧
    (ExampleSendEvent.LoadFromXml send xmlSend context isLoadingFromEditor).node.m_eventToSend =
      Event.mk "" ∧
    (ExampleReceiveEvent.LoadFromXml baseLoadFromXml recv xmlRecv context
        isLoadingFromEditor).result =
      (baseLoadFromXml recv.base xmlRecv context isLoadingFromEditor).result ∧
    (ExampleReceiveEvent.LoadFromXml baseLoadFromXml recv xmlRecv context
        isLoadingFromEditor).node.m_eventToReceive = Event.mk "" := by
  refine ⟨rfl, ?_, rfl, ?_, rfl, ?_⟩
  · simp [ExampleLog.LoadFromXml, XmlNode.getAttr_of_haveAttr_false xmlLog "message" hLog]
  · simp [ExampleSendEvent.LoadFromXml, XmlNode.getAttr_of_haveAttr_false xmlSend "event" hSend]
  · simp [ExampleReceiveEvent.LoadFromXml,
      XmlNode.getAttr_of_haveAttr_false xmlRecv "event" hRecv]

/-- Witness of the amended C5: three descriptions without attributes, the base
Decorator load failing. -/
theorem C5_load_reads_missing_attribute_as_empty_witness :
    XmlNode.haveAttr ⟨"ExampleLog", []⟩ "message" = false ∧
    XmlNode.haveAttr ⟨"ExampleSendEvent", []⟩ "event" = false ∧
    XmlNode.haveAttr ⟨"ExampleReceiveEvent", []⟩ "event" = false ∧
    ((ExampleLog.LoadFromXml ⟨"old"⟩ ⟨"ExampleLog", []⟩ ⟨"tree"⟩ false).result =
      LoadResult.LoadSuccess ∧
    (ExampleLog.LoadFromXml ⟨"old"⟩ ⟨"ExampleLog", []⟩ ⟨"tree"⟩ false).node.m_logMessage = "" ∧
    (ExampleSendEvent.LoadFromXml ⟨⟨"old"⟩⟩ ⟨"ExampleSendEvent", []⟩ ⟨"tree"⟩ false).result =
      LoadResult.LoadSuccess ∧
    (ExampleSendEvent.LoadFromXml ⟨⟨"old"⟩⟩ ⟨"ExampleSendEvent", []⟩ ⟨"tree"⟩
        false).node.m_eventToSend = Event.mk "" ∧
    (ExampleReceiveEvent.LoadFromXml (fun (b : Unit) _ _ _ => ⟨LoadResult.LoadFailure, b⟩)
        ⟨(), ⟨"old"⟩⟩ ⟨"ExampleReceiveEvent", []⟩ ⟨"tree"⟩ false).result =
      ((fun (b : Unit) (_ : XmlNode) (_ : LoadContext) (_ : Bool) =>
        (⟨LoadResult.LoadFailure, b⟩ : LoadOutcome Unit)) () ⟨"ExampleReceiveEvent", []⟩
        ⟨"tree"⟩ false).result ∧
    (ExampleReceiveEvent.LoadFromXml (fun (b : Unit) _ _ _ => ⟨LoadResult.LoadFailure, b⟩)
        ⟨(), ⟨"old"⟩⟩ ⟨"ExampleReceiveEvent", []⟩ ⟨"tree"⟩ false).node.m_eventToReceive =
      Event.mk "") :=
  ⟨by decide, by decide, by decide,
    C5_load_reads_missing_attribute_as_empty ⟨"ExampleLog", []⟩ ⟨"ExampleSendEvent", []⟩
      ⟨"ExampleReceiveEvent", []⟩ (by decide) (by decide) (by decide) ⟨"old"⟩ ⟨⟨"old"⟩⟩
      ⟨(), ⟨"old"⟩⟩ (fun (b : Unit) _ _ _ => ⟨LoadResult.LoadFailure, b⟩) ⟨"tree"⟩ false⟩

/-- C10: for every description and load context, ExampleReceiveEvent.LoadFromXml
returns exactly the result of the base Decorator LoadFromXml, called on the
same description: it is a load failure exactly when the base load fails and
LoadSuccess exactly when the base load succeeds. -/
theorem C10_exampleReceiveEvent_load_result_is_base_result {β : Type}
    (baseLoadFromXml : β → XmlNode → LoadContext → Bool → LoadOutcome β)
    (self : ExampleReceiveEvent β) (xml : XmlNode) (context : LoadContext)
    (isLoadingFromEditor : Bool) :
    (ExampleReceiveEvent.LoadFromXml baseLoadFromXml self xml context
        isLoadingFromEditor).result =
      (baseLoadFromXml self.base xml context isLoadingFromEditor).result ∧
    ((ExampleReceiveEvent.LoadFromXml baseLoadFromXml self xml context
        isLoadingFromEditor).result = LoadResult.LoadFailure ↔
      (baseLoadFromXml self.base xml context isLoadingFromEditor).result =
        LoadResult.LoadFailure) ∧
    ((ExampleReceiveEvent.LoadFromXml baseLoadFromXml self xml context
        isLoadingFromEditor).result = LoadResult.LoadSuccess ↔
      (baseLoadFromXml self.base xml context isLoadingFromEditor).result =
        LoadResult.LoadSuccess) :=
  ⟨rfl, Iff.rfl, Iff.rfl⟩

/-- C7: for every ExampleReceiveEvent node loaded from a description whose
attribute "event" is n, and every delivered event e, HandleEvent writes the
one log line "We got the event!" when the name of e equals n and makes no
engine call at all when the names differ. -/
theorem C7_exampleReceiveEvent_logs_on_matching_name {β : Type}
    (baseLoadFromXml : β → XmlNode → LoadContext → Bool → LoadOutcome β)
    (fresh : ExampleReceiveEvent β) (xml : XmlNode) (n : String) (loadContext : LoadContext)
    (isLoadingFromEditor : Bool) (context : EventContext) (e : Event) :
    (ExampleReceiveEvent.HandleEvent
        (ExampleReceiveEvent.LoadFromXml baseLoadFromXml fresh xml loadContext
          isLoadingFromEditor).node context e).effects =
      (if e.name = xml.getAttr "event" then [Effect.log "We got the event!"] else []) ∧
    (ExampleReceiveEvent.HandleEvent
        (ExampleReceiveEvent.LoadFromXml baseLoadFromXml fresh (xml.setAttr "event" n)
          loadContext isLoadingFromEditor).node context e).effects =
      (if e.name = n then [Effect.log "We got the event!"] else []) := by
  have key : ∀ (hd : (CryLogAlways "We got the event!").isSome = true) (m : String),
      (if e = Event.mk m then [(CryLogAlways "We got the event!").get hd] else []) =
      (if e.name = m then [Effect.log "We got the event!"] else []) := by
    intro hd m
    obtain ⟨name⟩ := e
    by_cases h : name = m
    · simp [h, CryLogAlways_gotEvent]
    · simp [h]
  constructor
  · simp only [ExampleReceiveEvent.HandleEvent, ExampleReceiveEvent.LoadFromXml]
    exact key _ _
  · simp only [ExampleReceiveEvent.HandleEvent, ExampleReceiveEvent.LoadFromXml,
      XmlNode.getAttr_setAttr]
    exact key _ _

/-- C8: for every ExampleReceiveEvent node, every update context and every
sequence of events delivered to it before, HandleEvent leaves the node as it
was, and Update returns exactly what the base Decorator Update returns on the
Decorator part of the node: the same status and the same engine calls. -/
theorem C8_exampleReceiveEvent_update_is_base_update {β : Type}
    (baseUpdate : β → UpdateContext → UpdateResult β)
    (self : ExampleReceiveEvent β) (events : List (EventContext × Event))
    (eventContext : EventContext) (event : Event) (context : UpdateContext) :
    (ExampleReceiveEvent.HandleEvent self eventContext event).node = self ∧
    ExampleReceiveEvent.afterEvents self events = self ∧
    (ExampleReceiveEvent.Update baseUpdate (ExampleReceiveEvent.afterEvents self events)
        context).status = (baseUpdate self.base context).status ∧
    (ExampleReceiveEvent.Update baseUpdate (ExampleReceiveEvent.afterEvents self events)
        context).effects = (baseUpdate self.base context).effects ∧
    (ExampleReceiveEvent.Update baseUpdate (ExampleReceiveEvent.afterEvents self events)
        context).node.base = (baseUpdate self.base context).node ∧
    (ExampleReceiveEvent.Update baseUpdate (ExampleReceiveEvent.afterEvents self events)
        context).status = (ExampleReceiveEvent.Update baseUpdate self context).status := by
  rw [ExampleReceiveEvent.afterEvents_eq]
  exact ⟨rfl, rfl, rfl, rfl, rfl, rfl⟩

/-- A message without a percent sign is logged as it is: Update writes one
entry whose text is the message, and returns Success. -/
theorem ExampleLog.update_logs_message_of_no_percent (self : ExampleLog)
    (context : UpdateContext) (h : ∀ c ∈ self.m_logMessage.toList, c ≠ '%') :
    ExampleLog.Update self context =
      some { status := Status.Success, node := self,
             effects := [Effect.log self.m_logMessage] } :=
  ExampleLog.update_of_format self context self.m_logMessage.toList
    (formatNoArgs_of_no_percent _ h)

/-- C9 fails on the code at a message with a format directive: the node loaded
with the message "100%%" writes one entry whose text is "100%", not the
message, and for the message "%s" the call is undefined behavior, so no entry
with the text of the message is the result. -/
theorem C9_exampleLog_message_used_as_format :
    (ExampleLog.LoadFromXml ⟨""⟩ ⟨"ExampleLog", [("message", "100%%")]⟩ ⟨"tree"⟩
        false).node.m_logMessage = "100%%" ∧
    (ExampleLog.Update
        (ExampleLog.LoadFromXml ⟨""⟩ ⟨"ExampleLog", [("message", "100%%")]⟩ ⟨"tree"⟩
          false).node ⟨1⟩).map (fun r => r.effects) = some [Effect.log "100%"] ∧
    (ExampleLog.Update
        (ExampleLog.LoadFromXml ⟨""⟩ ⟨"ExampleLog", [("message", "100%%")]⟩ ⟨"tree"⟩
          false).node ⟨1⟩).map (fun r => r.effects) ≠ some [Effect.log "100%%"] ∧
    (ExampleLog.Update
        (ExampleLog.LoadFromXml ⟨""⟩ ⟨"ExampleLog", [("message", "%s")]⟩ ⟨"tree"⟩
          false).node ⟨1⟩).map (fun r => r.effects) = none := by
  decide

/-- The forwarding of the base Decorator HandleEvent, had it been called,
reaches the active child: the runtime invokes HandleEvent on the child. -/
theorem Decorator.forwarding_reaches_child (tree : TwoNodeTree) (event : Event)
    (context : EventContext) (fuel : Nat) (h : tree.root.base.running = true) :
    interpret (SendEvent (fuel + 1)) tree (Decorator.HandleEvent tree.root.base context
      event).effects = some (tree, [Call.handleEvent Target.child event]) := by
  obtain ⟨entityId, ⟨⟨node, childRunning⟩, toReceive⟩, rootRunning⟩ := tree
  simp only at h
  subst h
  simp [Decorator.HandleEvent, interpret, SendEvent, ExampleSendEvent.HandleEvent]

/-- The delivery of one event to the active root of the two-node tree. -/
theorem SendEvent_root_running (tree : TwoNodeTree) (event : Event) (fuel : Nat) :
    SendEvent (fuel + 1) { tree with rootRunning := true } Target.root event =
      some ({ tree with rootRunning := true },
        Call.handleEvent Target.root event ::
          (if event = tree.root.m_eventToReceive then [Call.log "We got the event!"]
            else [])) := by
  by_cases h : event = tree.root.m_eventToReceive
  · simp [SendEvent, ExampleReceiveEvent.HandleEvent, h, interpret, CryLogAlways_gotEvent]
  · simp [SendEvent, ExampleReceiveEvent.HandleEvent, h, interpret]

/-- One tick of the two-node tree: the child broadcasts its event, the root
receives it, and both nodes are active afterwards. -/
theorem tick_eq (tree : TwoNodeTree) (fuel : Nat) :
    tick (fuel + 1) tree = some (Status.Running,
      { tree with
        root := { tree.root with base := { tree.root.base with running := true } },
        rootRunning := true },
      Call.broadcast tree.entityId tree.root.base.node.m_eventToSend ::
        Call.handleEvent Target.root tree.root.base.node.m_eventToSend ::
          (if tree.root.base.node.m_eventToSend = tree.root.m_eventToReceive
            then [Call.log "We got the event!"] else [])) := by
  obtain ⟨entityId, ⟨⟨⟨toSend⟩, childRunning⟩, toReceive⟩, rootRunning⟩ := tree
  by_cases h : toSend = toReceive <;> cases rootRunning <;> cases childRunning <;>
    simp [tick, ExampleReceiveEvent.Update, ExampleReceiveEvent.OnInitialize,
      ExampleReceiveEvent.HandleEvent, Decorator.Update, Decorator.OnInitialize,
      ExampleSendEvent.Update, ExampleSendEvent.OnInitialize, interpret, SendEvent, h,
      CryLogAlways_gotEvent]

/-- C6: no delivery cycle through the decorator.  HandleEvent of an
ExampleReceiveEvent node leaves the node (its child included) as it was and
makes no engine call other than the log line: it neither forwards the event to
the child nor hands it to the manager.  In the two-node tree whose child is an
ExampleSendEvent, the delivery of one broadcast ends, with exactly one
HandleEvent invocation on the decorator and none on the child, and so does a
tick, in which the Update of the child makes the one broadcast. -/
theorem C6_no_delivery_cycle_through_decorator {β : Type} (self : ExampleReceiveEvent β)
    (context : EventContext) (event : Event) (tree : TwoNodeTree) (fuel : Nat) :
    (ExampleReceiveEvent.HandleEvent self context event).node = self ∧
    (∀ eff ∈ (ExampleReceiveEvent.HandleEvent self context event).effects,
      eff = Effect.log "We got the event!") ∧
    managerHandleEvent (fuel + 1) { tree with rootRunning := true } tree.entityId event =
      some ({ tree with rootRunning := true },
        Call.handleEvent Target.root event ::
          (if event = tree.root.m_eventToReceive then [Call.log "We got the event!"]
            else [])) ∧
    (∃ tree1 calls, tick (fuel + 1) tree = some (Status.Running, tree1, calls) ∧
      calls = Call.broadcast tree.entityId tree.root.base.node.m_eventToSend ::
        Call.handleEvent Target.root tree.root.base.node.m_eventToSend ::
          (if tree.root.base.node.m_eventToSend = tree.root.m_eventToReceive
            then [Call.log "We got the event!"] else []) ∧
      callBroadcastCount calls = 1 ∧
      handleEventCount Target.root calls = 1 ∧
      handleEventCount Target.child calls = 0) := by
  refine ⟨rfl, ?_, ?_, ?_⟩
  · intro eff heff
    by_cases h : event = self.m_eventToReceive
    · simpa [ExampleReceiveEvent.HandleEvent, h, CryLogAlways_gotEvent] using heff
    · simp [ExampleReceiveEvent.HandleEvent, h] at heff
  · simp only [managerHandleEvent, if_true]
    exact SendEvent_root_running tree event fuel
  · refine ⟨_, _, tick_eq tree fuel, rfl, ?_, ?_, ?_⟩ <;>
      by_cases h : tree.root.base.node.m_eventToSend = tree.root.m_eventToReceive <;>
      simp [h, callBroadcastCount, handleEventCount]

end BehaviorTree
